import Mathlib

/-!
Verification of the occupancy heatmap pipeline and renderer (`heatmap.py`).

The Python pipeline cleans postal-coded occupancy records, geocodes them,
jitters duplicate coordinates, bins records into weeks, aggregates capacity
and occupancy per (week, postal code), maps capacity to two circle radii,
and emits an HTML map whose embedded JavaScript replays the weekly timeline
with a pulse animation on significant rate changes.

Real-number quantities are modelled as rationals.  The Python builtin
`round` (round half to even at decimal ties) and the JavaScript
`Math.round`
(half toward positive infinity) are embedded exactly over the rationals.
-/

namespace Heatmap

/-- JavaScript `Math.round`: half rounds toward positive infinity. -/
def jsRound (q : ℚ) : ℤ := ⌊q + 1/2⌋

/-- Round to nearest integer, ties to even — the rounding used by the
Python builtin `round` on exactly representable decimals. -/
def rndHalfEven (q : ℚ) : ℤ :=
  if q - ⌊q⌋ < 1/2 then ⌊q⌋
  else if 1/2 < q - ⌊q⌋ then ⌊q⌋ + 1
  else if ⌊q⌋ % 2 = 0 then ⌊q⌋ else ⌊q⌋ + 1

/-- Python `round(q, n)`: round to `n` decimal places, ties to even. -/
def pyRound (n : ℕ) (q : ℚ) : ℚ := (rndHalfEven (q * 10 ^ n) : ℚ) / 10 ^ n

/-! ## Configuration constants (`heatmap.py` lines 29-34, 114-115) -/

/-- Fixed blue-circle radius in metres. -/
def CIRCLE_RADIUS_M : ℚ := 100

/-- Green halo minimum radius: 0.75 miles in metres. -/
def GREEN_MIN_M : ℚ := 3/4 * (1609344/1000)

/-- Green halo maximum radius: 2 miles in metres. -/
def GREEN_MAX_M : ℚ := 2 * (1609344/1000)

/-- Pulse overshoot fraction. -/
def PULSE_OVERSHOOT : ℚ := 35/100

/-- Minimum primary (capacity-scaled) radius in metres. -/
def CAP_MIN_R : ℚ := 80

/-- Maximum primary (capacity-scaled) radius in metres. -/
def CAP_MAX_R : ℚ := 500

/-! ## Record normalisation (`heatmap.py` lines 40-53)

A raw row carries the postal code as read, and the capacity, occupancy and
date fields as `Option`s: `none` models a value `pd.to_numeric` /
`pd.to_datetime` cannot coerce (the source turns those into NaN/NaT and
drops the row).  Dates are modelled by their ordinal number. -/

structure RawRow where
  code : String
  date : Option ℤ
  cap : Option ℚ
  occ : Option ℚ
  deriving DecidableEq, Repr

/-- A row that survived cleaning. -/
structure NormRow where
  code : String
  date : ℤ
  cap : ℚ
  occ : ℚ
  deriving DecidableEq, Repr

/-- Canonicalise the postal code: uppercase every character, then remove
all spaces (`.str.upper().str.replace(" ", "")`). -/
def canonCode (s : String) : String :=
  String.mk ((s.data.map Char.toUpper).filter (fun c => c != ' '))

/-- First-letter class of the postal-code pattern
`[ABCEGHJ-NPRSTVXY]`. -/
def letters1 : List Char :=
  ['A', 'B', 'C', 'E', 'G', 'H', 'J', 'K', 'L', 'M', 'N', 'P', 'R', 'S',
   'T', 'V', 'X', 'Y']

/-- Interior-letter class of the postal-code pattern
`[ABCEGHJ-NPRSTV-Z]`. -/
def letters2 : List Char :=
  ['A', 'B', 'C', 'E', 'G', 'H', 'J', 'K', 'L', 'M', 'N', 'P', 'R', 'S',
   'T', 'V', 'W', 'X', 'Y', 'Z']

/-- Full match of the postal-code pattern
`[ABCEGHJ-NPRSTVXY]\d[ABCEGHJ-NPRSTV-Z]\d[ABCEGHJ-NPRSTV-Z]\d`. -/
def validPostal (s : String) : Bool :=
  match s.toList with
  | [c0, c1, c2, c3, c4, c5] =>
    letters1.contains c0 && c1.isDigit && letters2.contains c2 &&
      c3.isDigit && letters2.contains c4 && c5.isDigit
  | _ => false

/-- The Record Normalizer on one row: canonicalise the code, keep the row
only when the canonical code fully matches the pattern and all three
coerced fields are present. -/
def normalize (r : RawRow) : Option NormRow :=
  let c := canonCode r.code
  if validPostal c then
    match r.date, r.cap, r.occ with
    | some d, some cp, some oc => some ⟨c, d, cp, oc⟩
    | _, _, _ => none
  else none

/-! ## Deterministic jitter (`heatmap.py` lines 78-86) -/

/-- The offset the source computes from `h = int(md5(code)[:8], 16)`:
`((h % 1000) / 999 - 0.5) * 0.004` per axis (longitude uses
`(h // 1000) % 1000`).  `h` is a deterministic pure function of the code,
so the offset is too; the hash value is passed in explicitly here. -/
def jitterFromHash (h : ℕ) : ℚ × ℚ :=
  (((h % 1000 : ℕ) / 999 - 1/2) * (4/1000),
   (((h / 1000) % 1000 : ℕ) / 999 - 1/2) * (4/1000))

/-- One geocoded row before jittering. -/
structure GeoRow where
  lat : ℚ
  lon : ℚ
  code : String
  deriving DecidableEq, Repr

/-- The duplicate key used by `df.duplicated(subset=["lat","lon",POST_COL])`. -/
def sameKey (a b : GeoRow) : Bool :=
  a.lat == b.lat && a.lon == b.lon && a.code == b.code

/-- Duplicate flag with `keep=False` semantics: the (lat, lon, code)
triple of the row occurs
at least twice in the whole frame. -/
def isDupe (rows : List GeoRow) (r : GeoRow) : Bool :=
  2 ≤ (rows.filter (sameKey r)).length

/-- The jitter step on one row: duplicate rows get the code-derived offset
added to both coordinates, unique rows pass through unchanged.
`hash` stands for `int(md5(code)[:8], 16)`. -/
def jitterOne (hash : String → ℕ) (rows : List GeoRow) (r : GeoRow) : GeoRow :=
  if isDupe rows r then
    let o := jitterFromHash (hash r.code)
    { r with lat := r.lat + o.1, lon := r.lon + o.2 }
  else r

/-- The whole jitter pass over the frame. -/
def applyJitter (hash : String → ℕ) (rows : List GeoRow) : List GeoRow :=
  rows.map (jitterOne hash rows)

/-! ## Weekly binning (`heatmap.py` lines 91-99) and aggregation (102-109) -/

/-- One aggregated (week, postal code) sample as it flows downstream. -/
structure Sample where
  bin : ℕ
  code : String
  total_cap : ℚ
  occupied : ℚ
  rate : ℚ
  deriving DecidableEq, Repr

/-- The retained bin list `bins`: sort the distinct observed week bins,
keep those at or after
the start boundary, and fail when none survive
(`raise ValueError("No weekly bins found after start_period.")`).
Week periods are totally ordered; they are modelled by naturals. -/
def computeBins (observed : List ℕ) (start : ℕ) : Except String (List ℕ) :=
  let binsAll := List.insertionSort (· ≤ ·) observed.dedup
  let bins := List.insertionSort (· ≤ ·) (binsAll.filter (fun b => decide (start ≤ b)))
  if bins.isEmpty then Except.error "No weekly bins found after start_period."
  else Except.ok bins

/-- Downstream sample filter `agg = agg[agg["BIN"].isin(bins)]`. -/
def filterAgg (samples : List Sample) (bins : List ℕ) : List Sample :=
  samples.filter (fun s => bins.contains s.bin)

/-- The dataset-level stage: compute the retained bins — aborting, and so
emitting nothing, when none survive — then keep only samples in a retained
bin. -/
def buildTimeline (observed : List ℕ) (samples : List Sample) (start : ℕ) :
    Except String (List ℕ × List Sample) :=
  match computeBins observed start with
  | Except.error e => Except.error e
  | Except.ok bins => Except.ok (bins, filterAgg samples bins)

/-- Arithmetic mean of a list of rationals (pandas `mean` aggregation). -/
def mean (xs : List ℚ) : ℚ := xs.sum / xs.length

/-- One aggregated group of an (BIN, postal code) key. -/
structure AggSample where
  total_cap : ℚ
  occupied : ℚ
  rate : ℚ
  deriving DecidableEq, Repr

/-- Aggregate one group: mean capacity, mean occupancy, and their ratio;
a zero mean capacity becomes a NaN rate in the source and the row is
dropped, modelled as `none`. -/
def aggGroup (caps occs : List ℚ) : Option AggSample :=
  let tc := mean caps
  let oc := mean occs
  if tc = 0 then none else some ⟨tc, oc, oc / tc⟩

/-! ## Radius scaling (`heatmap.py` lines 114-131) -/

/-- The degenerate-range guard `if cap_max <= cap_min: cap_max = cap_min + 1`. -/
def adjCapMax (capMin capMax : ℚ) : ℚ :=
  if capMax ≤ capMin then capMin + 1 else capMax

/-- Primary radius `cap_radius`: clamp the normalised capacity into
[0,1], interpolate
between `CAP_MIN_R` and `CAP_MAX_R`, and round to one decimal. -/
def cap_radius (capMin capMax cap : ℚ) : ℚ :=
  let x := max 0 (min 1 ((cap - capMin) / (adjCapMax capMin capMax - capMin)))
  pyRound 1 (CAP_MIN_R + x * (CAP_MAX_R - CAP_MIN_R))

/-- Halo radius `green_radius`: the same clamp-and-interpolate over the
halo range. -/
def green_radius (capMin capMax cap : ℚ) : ℚ :=
  let x := max 0 (min 1 ((cap - capMin) / (adjCapMax capMin capMax - capMin)))
  pyRound 1 (GREEN_MIN_M + x * (GREEN_MAX_M - GREEN_MIN_M))

/-! ## Colour scale (JavaScript `rateColor`, `heatmap.py` lines 228-234) -/

/-- The fixed ordered high-rate palette. -/
def PALETTE : List String :=
  ["#386D9C", "#4C6D8D", "#606C7D", "#9B6A4E", "#AF693F",
   "#C3682F", "#D7671F", "#EB6710", "#FF6600"]

/-- Colour scale `rateColor(rate)` from the embedded JavaScript: below
0.5 a fixed green,
below 0.8 a fixed blue, else the palette entry chosen by linearly mapping
[0.8, 1.0] onto the palette indices with `Math.round`, clamped above. -/
def rateColor (rate : ℚ) : String :=
  if rate < 1/2 then "#2e8b57"
  else if rate < 8/10 then "#386D9C"
  else
    let snapped := jsRound (min ((rate - 8/10) / (2/10)) 1 * ((PALETTE.length : ℚ) - 1))
    PALETTE.getD (min snapped ((PALETTE.length : ℤ) - 1)).toNat "#FF6600"

/-- The colour mapping as the specification words it: a fixed under-pressure
colour strictly below 0.5, a fixed moderate colour on [0.5, 0.8), and for
rates at least 0.8 the palette entry at index
`round(min((rate - 0.8)/0.2, 1) * (N-1))` clamped to the last index. -/
def rateColorSpec (rate : ℚ) : String :=
  if rate < 1/2 then "#2e8b57"
  else if rate < 8/10 then "#386D9C"
  else
    let idx := (jsRound (min ((rate - 8/10) / (2/10)) 1 * ((PALETTE.length : ℚ) - 1))).toNat
    PALETTE.getD (min idx (PALETTE.length - 1)) "#FF6600"

/-! ## Rendering one entity in one week (`renderBin`, lines 324-348) -/

/-- One serialized per-week visual frame (lines 142-148 / JS `d`). -/
structure Frame where
  lat : ℚ
  lon : ℚ
  rate : ℚ
  radius_m : ℚ
  green_r : ℚ
  deriving DecidableEq, Repr

/-- How the radius of a circle is updated during a render: set directly,
or
animated through the overshoot pulse toward a target. -/
inductive RadiusUpdate
  | direct (r : ℚ)
  | pulse (target : ℚ)
  deriving DecidableEq, Repr

/-- Everything `renderBin` does to one entity that has a frame this week. -/
structure RenderEffect where
  blueFill : String
  blueUpdate : RadiusUpdate
  greenUpdate : RadiusUpdate
  newPrevRate : ℚ
  deriving DecidableEq, Repr

/-- The per-entity loop body of `renderBin`: the halo radius is set
directly every time; the primary circle pulses exactly when the rate moved
by more than 0.01 against the last rendered rate (missing previous rate
defaults to the rate of the frame itself), else its radius is set
directly. -/
def renderEntity (prevRate : Option ℚ) (d : Frame) : RenderEffect :=
  let prev := prevRate.getD d.rate
  { blueFill := rateColor d.rate
    blueUpdate :=
      if 1/100 < |d.rate - prev| then RadiusUpdate.pulse d.radius_m
      else RadiusUpdate.direct d.radius_m
    greenUpdate := RadiusUpdate.direct d.green_r
    newPrevRate := d.rate }

/-! ## Transport controls (`buildUI` lines 380-393, `startPlay` 396-405) -/

/-- Step-backward button: `renderBin(Math.max(0, currentBin - 1))`. -/
def stepPrev (cur : ℤ) : ℤ := max 0 (cur - 1)

/-- Step-forward button: `renderBin(Math.min(BINS.length - 1, currentBin + 1))`. -/
def stepNext (n cur : ℤ) : ℤ := min (n - 1) (cur + 1)

/-- Auto-play tick: `currentBin + 1 >= BINS.length ? 0 : currentBin + 1`. -/
def playTick (n cur : ℤ) : ℤ := if n ≤ cur + 1 then 0 else cur + 1

/-- Slider seek: `renderBin(parseInt(this.value))`; the range input clamps
its value to `[0, BINS.length - 1]` in the DOM. -/
def seekWeek (v : ℤ) : ℤ := v

/-! ## Helper lemmas on the rounding primitives -/

theorem rndHalfEven_ge (q : ℚ) : ⌊q⌋ ≤ rndHalfEven q := by
  unfold rndHalfEven
  split_ifs <;> omega

theorem rndHalfEven_le (q : ℚ) : rndHalfEven q ≤ ⌊q⌋ + 1 := by
  unfold rndHalfEven
  split_ifs <;> omega

theorem rndHalfEven_mono {x y : ℚ} (h : x ≤ y) : rndHalfEven x ≤ rndHalfEven y := by
  have hf : ⌊x⌋ ≤ ⌊y⌋ := Int.floor_le_floor h
  rcases lt_or_eq_of_le hf with hlt | heq
  · have h1 := rndHalfEven_le x
    have h2 := rndHalfEven_ge y
    omega
  · unfold rndHalfEven
    rw [← heq]
    split_ifs <;> first | omega | (exfalso; linarith)

theorem pyRound_mono (n : ℕ) {q r : ℚ} (h : q ≤ r) : pyRound n q ≤ pyRound n r := by
  unfold pyRound
  have hp : (0:ℚ) ≤ 10 ^ n := by positivity
  have h1 : rndHalfEven (q * 10 ^ n) ≤ rndHalfEven (r * 10 ^ n) :=
    rndHalfEven_mono (mul_le_mul_of_nonneg_right h hp)
  have h2 : ((rndHalfEven (q * 10 ^ n) : ℚ)) ≤ (rndHalfEven (r * 10 ^ n) : ℚ) := by
    exact_mod_cast h1
  gcongr

theorem clamp01_nonneg (t : ℚ) : 0 ≤ max 0 (min 1 t) := le_max_left 0 _

theorem clamp01_le_one (t : ℚ) : max 0 (min 1 t) ≤ 1 :=
  max_le (by norm_num) (min_le_left 1 t)

theorem clamp01_mono {s t : ℚ} (h : s ≤ t) : max 0 (min 1 s) ≤ max 0 (min 1 t) :=
  max_le_max le_rfl (min_le_min le_rfl h)

theorem adj_sub_pos (m M : ℚ) : 0 < adjCapMax m M - m := by
  unfold adjCapMax
  split_ifs with h
  · norm_num
  · have := not_le.mp h
    linarith

theorem cap_radius_mono (m M : ℚ) {c1 c2 : ℚ} (h : c1 ≤ c2) :
    cap_radius m M c1 ≤ cap_radius m M c2 := by
  unfold cap_radius
  apply pyRound_mono
  have hd := adj_sub_pos m M
  have hx : (c1 - m) / (adjCapMax m M - m) ≤ (c2 - m) / (adjCapMax m M - m) := by
    gcongr
  have hc := clamp01_mono hx
  have h420 : (0:ℚ) ≤ CAP_MAX_R - CAP_MIN_R := by norm_num [CAP_MIN_R, CAP_MAX_R]
  nlinarith [mul_le_mul_of_nonneg_right hc h420]

theorem green_radius_mono (m M : ℚ) {c1 c2 : ℚ} (h : c1 ≤ c2) :
    green_radius m M c1 ≤ green_radius m M c2 := by
  unfold green_radius
  apply pyRound_mono
  have hd := adj_sub_pos m M
  have hx : (c1 - m) / (adjCapMax m M - m) ≤ (c2 - m) / (adjCapMax m M - m) := by
    gcongr
  have hc := clamp01_mono hx
  have hg : (0:ℚ) ≤ GREEN_MAX_M - GREEN_MIN_M := by norm_num [GREEN_MIN_M, GREEN_MAX_M]
  nlinarith [mul_le_mul_of_nonneg_right hc hg]

theorem pyRound_eighty : pyRound 1 (80 : ℚ) = 80 := by
  norm_num [pyRound, rndHalfEven]

theorem pyRound_five_hundred : pyRound 1 (500 : ℚ) = 500 := by
  norm_num [pyRound, rndHalfEven]

theorem pyRound_green_min : pyRound 1 GREEN_MIN_M = 12070/10 := by
  norm_num [pyRound, rndHalfEven, GREEN_MIN_M]

theorem pyRound_green_max : pyRound 1 GREEN_MAX_M = 32187/10 := by
  norm_num [pyRound, rndHalfEven, GREEN_MAX_M]

theorem cap_radius_bounds (m M c : ℚ) :
    80 ≤ cap_radius m M c ∧ cap_radius m M c ≤ 500 := by
  unfold cap_radius
  set x := max 0 (min 1 ((c - m) / (adjCapMax m M - m))) with hxdef
  have h0 : 0 ≤ x := clamp01_nonneg _
  have h1 : x ≤ 1 := clamp01_le_one _
  have hlo : (80:ℚ) ≤ CAP_MIN_R + x * (CAP_MAX_R - CAP_MIN_R) := by
    norm_num [CAP_MIN_R, CAP_MAX_R] <;> nlinarith
  have hhi : CAP_MIN_R + x * (CAP_MAX_R - CAP_MIN_R) ≤ 500 := by
    norm_num [CAP_MIN_R, CAP_MAX_R] <;> nlinarith
  constructor
  · calc (80:ℚ) = pyRound 1 80 := pyRound_eighty.symm
      _ ≤ _ := pyRound_mono 1 hlo
  · calc pyRound 1 (CAP_MIN_R + x * (CAP_MAX_R - CAP_MIN_R))
        ≤ pyRound 1 500 := pyRound_mono 1 hhi
      _ = 500 := pyRound_five_hundred

theorem green_radius_bounds (m M c : ℚ) :
    12070/10 ≤ green_radius m M c ∧ green_radius m M c ≤ 32187/10 := by
  unfold green_radius
  set x := max 0 (min 1 ((c - m) / (adjCapMax m M - m))) with hxdef
  have h0 : 0 ≤ x := clamp01_nonneg _
  have h1 : x ≤ 1 := clamp01_le_one _
  have hlo : GREEN_MIN_M ≤ GREEN_MIN_M + x * (GREEN_MAX_M - GREEN_MIN_M) := by
    norm_num [GREEN_MIN_M, GREEN_MAX_M] <;> nlinarith
  have hhi : GREEN_MIN_M + x * (GREEN_MAX_M - GREEN_MIN_M) ≤ GREEN_MAX_M := by
    norm_num [GREEN_MIN_M, GREEN_MAX_M] <;> nlinarith
  constructor
  · calc (12070/10 : ℚ) = pyRound 1 GREEN_MIN_M := pyRound_green_min.symm
      _ ≤ _ := pyRound_mono 1 hlo
  · calc pyRound 1 (GREEN_MIN_M + x * (GREEN_MAX_M - GREEN_MIN_M))
        ≤ pyRound 1 GREEN_MAX_M := pyRound_mono 1 hhi
      _ = 32187/10 := pyRound_green_max

end Heatmap

namespace Heatmap

/-- C5: for every possible hash value of a location code (the source uses
`h = int(md5(code)[:8], 16)`, a pure deterministic function of the code
with no random seed), both components of the jitter offset have magnitude
at most 0.002 degrees.  Determinism across runs holds by construction: the
offset is a function of the hash value, which is a function of the code. -/
theorem jitter_offset_bounded_by_two_thousandths :
    ∀ h : ℕ, |(jitterFromHash h).1| ≤ 1/500 ∧ |(jitterFromHash h).2| ≤ 1/500 := by
  intro h
  have key : ∀ k : ℕ, k ≤ 999 → |((k : ℚ) / 999 - 1/2) * (4/1000)| ≤ 1/500 := by
    intro k hk
    have h0 : (0:ℚ) ≤ (k : ℚ) := by positivity
    have h1 : (k : ℚ) ≤ 999 := by exact_mod_cast hk
    have hlo : (0:ℚ) ≤ (k : ℚ) / 999 := by positivity
    have hhi : (k : ℚ) / 999 ≤ 1 := by
      rw [div_le_one (by norm_num)]
      exact h1
    rw [abs_le]
    constructor <;> nlinarith
  constructor
  · exact key (h % 1000) (by omega)
  · exact key ((h / 1000) % 1000) (by omega)

/-- C6: when the observed capacity maximum equals the minimum, the source
replaces the interpolation denominator end by `cap_min + 1`, and every
sample of such a dataset (all capacities equal to the minimum) gets
exactly the minimum primary radius 80. -/
theorem degenerate_capacity_range_maps_to_min_radius :
    ∀ m M c : ℚ, M = m → c = m →
      adjCapMax m M = m + 1 ∧ cap_radius m M c = 80 := by
  intro m M c hM hc
  subst hM
  subst hc
  constructor
  · unfold adjCapMax
    simp
  · unfold cap_radius adjCapMax
    norm_num [CAP_MIN_R, CAP_MAX_R, pyRound_eighty]

/-- C6 witness: a concrete degenerate dataset with every capacity 7. -/
theorem degenerate_capacity_range_maps_to_min_radius_witness :
    adjCapMax 7 7 = 7 + 1 ∧ cap_radius 7 7 7 = 80 :=
  degenerate_capacity_range_maps_to_min_radius 7 7 7 rfl rfl

/-- C4 (counterexample): in a dataset with observed capacities ranging
over [10, 20], the halo radius of the minimum-capacity sample is exactly
1207.0 m, strictly below the configured lower bound of 0.75 miles =
1207.008 m — so not every produced halo radius lies within the configured
bounds inclusive. -/
theorem halo_radius_below_configured_lower_bound :
    green_radius 10 20 10 = 12070/10 ∧ (12070/10 : ℚ) < GREEN_MIN_M := by
  constructor
  · unfold green_radius adjCapMax
    norm_num [GREEN_MIN_M, GREEN_MAX_M, pyRound, rndHalfEven]
  · norm_num [GREEN_MIN_M]

/-- C4 (amended): both radius mappings are monotone non-decreasing in
capacity; every primary radius lies in [80, 500]; every halo radius lies
in [1207.0, 3218.7] metres — the configured mile bounds rounded to one
decimal place, the low end 0.008 m below 0.75 miles — and the halo
minimum is at or above the primary lower bound. -/
theorem radius_mappings_monotone_and_bounded :
    (∀ m M c1 c2 : ℚ, c1 < c2 →
      cap_radius m M c1 ≤ cap_radius m M c2
        ∧ green_radius m M c1 ≤ green_radius m M c2)
    ∧ (∀ m M c : ℚ,
        80 ≤ cap_radius m M c ∧ cap_radius m M c ≤ 500
          ∧ 12070/10 ≤ green_radius m M c ∧ green_radius m M c ≤ 32187/10)
    ∧ (80:ℚ) ≤ 12070/10 := by
  refine ⟨?_, ?_, by norm_num⟩
  · intro m M c1 c2 h
    exact ⟨cap_radius_mono m M h.le, green_radius_mono m M h.le⟩
  · intro m M c
    obtain ⟨h1, h2⟩ := cap_radius_bounds m M c
    obtain ⟨h3, h4⟩ := green_radius_bounds m M c
    exact ⟨h1, h2, h3, h4⟩

/-- C4 witness: concrete capacities 1 < 2 over the observed range [0, 5]. -/
theorem radius_mappings_monotone_and_bounded_witness :
    cap_radius 0 5 1 ≤ cap_radius 0 5 2
      ∧ green_radius 0 5 1 ≤ green_radius 0 5 2 :=
  radius_mappings_monotone_and_bounded.1 0 5 1 2 (by decide)

/-- C2: the colour mapping is the pure function of rate the specification
describes — under-pressure colour strictly below 0.5, moderate colour on
[0.5, 0.8), palette entry at the rounded clamped index at or above 0.8 —
and rate 0.4999 gives the under-pressure colour, rate 0.5 the moderate
colour, and rate 1.2 the same (clamped) colour as rate 1.0. -/
theorem rateColor_matches_spec :
    (∀ rate : ℚ, rateColor rate = rateColorSpec rate)
    ∧ rateColor (4999/10000) = "#2e8b57"
    ∧ rateColor (1/2) = "#386D9C"
    ∧ rateColor (12/10) = rateColor 1 := by
  refine ⟨?_, by norm_num [rateColor], by norm_num [rateColor], ?_⟩
  · intro rate
    unfold rateColor rateColorSpec
    split_ifs with h1 h2
    · rfl
    · rfl
    · have hge : (8:ℚ)/10 ≤ rate := not_lt.mp h2
      have harg : 0 ≤ min ((rate - 8/10) / (2/10)) 1 * ((PALETTE.length : ℚ) - 1) := by
        apply mul_nonneg
        · exact le_min (div_nonneg (by linarith) (by norm_num)) zero_le_one
        · norm_num [PALETTE]
      have hsn : 0 ≤ jsRound (min ((rate - 8/10) / (2/10)) 1 * ((PALETTE.length : ℚ) - 1)) := by
        unfold jsRound
        exact Int.floor_nonneg.mpr (by linarith)
      simp only [show PALETTE.length = 9 from rfl]
      congr 1
      omega
  · have ha : rateColor (12/10) = "#FF6600" := by
      norm_num [rateColor, jsRound, PALETTE] <;> rfl
    have hb : rateColor 1 = "#FF6600" := by
      norm_num [rateColor, jsRound, PALETTE] <;> rfl
    rw [ha, hb]

/-- C1: when a week is rendered for an entity holding a frame, the primary
circle pulses exactly when the rate in the frame differs from the last rendered
rate by strictly more than 0.01, otherwise its radius is set directly; the
halo radius is always set directly from the frame.  The two
closing conjuncts check the boundary: a delta of exactly 0.01 sets the
radius directly, a delta of 0.0101 pulses. -/
theorem renderBin_pulse_iff_rate_delta_above_threshold :
    (∀ (prev : ℚ) (d : Frame),
      ((renderEntity (some prev) d).blueUpdate = RadiusUpdate.pulse d.radius_m
        ↔ 1/100 < |d.rate - prev|)
      ∧ ((renderEntity (some prev) d).blueUpdate = RadiusUpdate.direct d.radius_m
        ↔ ¬ 1/100 < |d.rate - prev|)
      ∧ (renderEntity (some prev) d).greenUpdate = RadiusUpdate.direct d.green_r)
    ∧ (renderEntity (some 0) ⟨0, 0, 1/100, 100, 1207⟩).blueUpdate
        = RadiusUpdate.direct 100
    ∧ (renderEntity (some 0) ⟨0, 0, 101/10000, 100, 1207⟩).blueUpdate
        = RadiusUpdate.pulse 100 := by
  have hgen : ∀ (prev : ℚ) (d : Frame),
      ((renderEntity (some prev) d).blueUpdate = RadiusUpdate.pulse d.radius_m
        ↔ 1/100 < |d.rate - prev|)
      ∧ ((renderEntity (some prev) d).blueUpdate = RadiusUpdate.direct d.radius_m
        ↔ ¬ 1/100 < |d.rate - prev|)
      ∧ (renderEntity (some prev) d).greenUpdate = RadiusUpdate.direct d.green_r := by
    intro prev d
    by_cases h : 1/100 < |d.rate - prev| <;> simp [renderEntity, h]
  refine ⟨hgen, ?_, ?_⟩
  · exact ((hgen 0 ⟨0, 0, 1/100, 100, 1207⟩).2.1).mpr (by
      rw [sub_zero, abs_of_nonneg (by norm_num : (0:ℚ) ≤ 1/100)]
      exact lt_irrefl _)
  · exact ((hgen 0 ⟨0, 0, 101/10000, 100, 1207⟩).1).mpr (by
      rw [sub_zero, abs_of_nonneg (by norm_num : (0:ℚ) ≤ 101/10000)]
      norm_num)

/-- C3 (counterexample): capacities {50, 70} and occupied {40, 60} do
aggregate to means 60 and 50 with rate 5/6 (0.8333 once rounded for the
frame), but the colour of that rate is "#4C6D8D" — the palette entry at index
1 — and not the first palette entry "#386D9C". -/
theorem scenario_color_not_first_palette_entry :
    aggGroup [50, 70] [40, 60] = some ⟨60, 50, 5/6⟩
    ∧ pyRound 4 (5/6) = 8333/10000
    ∧ rateColor (8333/10000) = "#4C6D8D"
    ∧ rateColor (5/6) = "#4C6D8D"
    ∧ PALETTE.getD 0 "" = "#386D9C"
    ∧ "#4C6D8D" ≠ "#386D9C" := by
  refine ⟨?_, ?_, ?_, ?_, rfl, by decide⟩
  · norm_num [aggGroup, mean]
  · norm_num [pyRound, rndHalfEven]
  · norm_num [rateColor, jsRound, PALETTE] <;> rfl
  · norm_num [rateColor, jsRound, PALETTE] <;> rfl

/-- C3 (amended): two records for one entity in one week bin with
capacities {50, 70} and occupied {40, 60} aggregate to mean capacity 60,
mean occupied 50 and rate 5/6 = 0.8333 once rounded (occupied mean over
capacity mean), and the colour of that rate is the palette entry at index 1
(the second entry) of the high-rate palette. -/
theorem scenario_aggregates_to_second_palette_entry :
    aggGroup [50, 70] [40, 60] = some ⟨60, 50, 5/6⟩
    ∧ pyRound 4 (5/6) = 8333/10000
    ∧ rateColor (8333/10000) = PALETTE.getD 1 ""
    ∧ rateColor (5/6) = PALETTE.getD 1 "" := by
  refine ⟨?_, ?_, ?_, ?_⟩
  · norm_num [aggGroup, mean]
  · norm_num [pyRound, rndHalfEven]
  · norm_num [rateColor, jsRound, PALETTE] <;> rfl
  · norm_num [rateColor, jsRound, PALETTE] <;> rfl

/-- The week-bin filter: fatal when no observed bin reaches the start
boundary, otherwise the sorted duplicate-free list of observed bins at or
after it. -/
theorem computeBins_spec (observed : List ℕ) (start : ℕ) :
    ((∀ b ∈ observed, b < start) →
      computeBins observed start
        = Except.error "No weekly bins found after start_period.")
    ∧ (∀ bins, computeBins observed start = Except.ok bins →
        bins.Sorted (· ≤ ·) ∧ bins.Nodup
          ∧ (∀ b, b ∈ bins ↔ b ∈ observed ∧ start ≤ b)) := by
  simp only [computeBins]
  set L := List.insertionSort (· ≤ ·)
      ((List.insertionSort (· ≤ ·) observed.dedup).filter
        (fun b => decide (start ≤ b))) with hL
  have hmemL : ∀ b, b ∈ L ↔ b ∈ observed ∧ start ≤ b := by
    intro b
    rw [hL, (List.perm_insertionSort _ _).mem_iff, List.mem_filter,
        (List.perm_insertionSort _ _).mem_iff, List.mem_dedup]
    simp
  constructor
  · intro hall
    have hnil : L = [] := by
      rw [List.eq_nil_iff_forall_not_mem]
      intro b hbmem
      obtain ⟨h1, h2⟩ := (hmemL b).mp hbmem
      exact absurd h2 (not_le.mpr (hall b h1))
    rw [hnil]
    simp
  · intro bins hok
    have hne : ¬ L.isEmpty = true := by
      intro hcon
      rw [if_pos hcon] at hok
      exact Except.noConfusion hok
    rw [if_neg hne] at hok
    injection hok with hok
    subst hok
    refine ⟨?_, ?_, hmemL⟩
    · exact List.sorted_insertionSort _ _
    · have h1 : observed.dedup.Nodup := List.nodup_dedup observed
      have h2 : (List.insertionSort (· ≤ ·) observed.dedup).Nodup :=
        ((List.perm_insertionSort _ _).nodup_iff).mpr h1
      have h3 := h2.filter (fun b => decide (start ≤ b))
      exact ((List.perm_insertionSort _ _).nodup_iff).mpr h3

/-- C7: with no weekly bin at or after the start boundary the pipeline
aborts with the fatal error (so no artifact is emitted); otherwise the
retained bin list is exactly the sorted set of observed bins at or after
the boundary and exactly the aggregated samples whose bin is retained
appear downstream. -/
theorem pipeline_fatal_without_bins_and_filters_downstream :
    ∀ (observed : List ℕ) (samples : List Sample) (start : ℕ),
      ((∀ b ∈ observed, b < start) →
        buildTimeline observed samples start
          = Except.error "No weekly bins found after start_period.")
      ∧ (∀ tl, buildTimeline observed samples start = Except.ok tl →
          tl.1.Sorted (· ≤ ·) ∧ tl.1.Nodup
            ∧ (∀ b, b ∈ tl.1 ↔ b ∈ observed ∧ start ≤ b)
            ∧ (∀ s, s ∈ tl.2 ↔ s ∈ samples ∧ s.bin ∈ tl.1)) := by
  intro observed samples start
  obtain ⟨herr, hok⟩ := computeBins_spec observed start
  constructor
  · intro hall
    unfold buildTimeline
    rw [herr hall]
  · intro tl htl
    unfold buildTimeline at htl
    cases hcb : computeBins observed start with
    | error e =>
      rw [hcb] at htl
      exact Except.noConfusion htl
    | ok bins =>
      rw [hcb] at htl
      obtain ⟨hs, hn, hm⟩ := hok bins hcb
      injection htl with htl
      subst htl
      refine ⟨hs, hn, hm, ?_⟩
      intro s
      simp [filterAgg, List.mem_filter, List.elem_iff, List.contains]

/-- C7 witness: a dataset whose only bin 2 is before boundary 5 aborts;
observed bins [7, 5] with boundary 5 keep exactly [5, 7] and keep the
sample in bin 5. -/
theorem pipeline_fatal_without_bins_and_filters_downstream_witness :
    (buildTimeline [2] [] 5
      = Except.error "No weekly bins found after start_period.")
    ∧ (([5, 7] : List ℕ).Sorted (· ≤ ·) ∧ ([5, 7] : List ℕ).Nodup
        ∧ (∀ b, b ∈ ([5, 7] : List ℕ) ↔ b ∈ [7, 5] ∧ 5 ≤ b)
        ∧ (∀ s : Sample, s ∈ [(⟨5, "A", 60, 50, 1⟩ : Sample)]
            ↔ s ∈ [(⟨5, "A", 60, 50, 1⟩ : Sample)] ∧ s.bin ∈ ([5, 7] : List ℕ))) :=
  ⟨(pipeline_fatal_without_bins_and_filters_downstream [2] [] 5).1 (by decide),
   (pipeline_fatal_without_bins_and_filters_downstream [7, 5]
      [⟨5, "A", 60, 50, 1⟩] 5).2 ([5, 7], [⟨5, "A", 60, 50, 1⟩]) rfl⟩

/-- C9 (counterexample): the row with raw code "m5v 1a1" is accepted, and
its location code is emitted uppercased and space-stripped — an accepted
field value that does not equal the raw input value. -/
theorem normalizer_mutates_accepted_code :
    normalize ⟨"m5v 1a1", some 739000, some 50, some 40⟩
      = some ⟨"M5V1A1", 739000, 50, 40⟩
    ∧ "M5V1A1" ≠ "m5v 1a1" := by
  exact ⟨rfl, by decide⟩

/-- C9 (amended): the Record Normalizer filters rows and canonicalises
only the location code (uppercasing and whitespace removal, as the
pattern check requires); the date, capacity and occupied values of every
accepted row equal the corresponding coerced input values unchanged. -/
theorem normalizer_preserves_values_up_to_code_canonicalisation :
    ∀ (r : RawRow) (out : NormRow), normalize r = some out →
      out.code = canonCode r.code
      ∧ r.date = some out.date ∧ r.cap = some out.cap ∧ r.occ = some out.occ := by
  intro r out h
  obtain ⟨code, date, cap, occ⟩ := r
  simp only [normalize] at h
  split_ifs at h with hv
  · cases date with
    | none => exact Option.noConfusion h
    | some d =>
      cases cap with
      | none => exact Option.noConfusion h
      | some c =>
        cases occ with
        | none => exact Option.noConfusion h
        | some o =>
          injection h with h
          subst h
          exact ⟨rfl, rfl, rfl, rfl⟩

/-- C9 witness: the concrete accepted row with code "m5v 1a1". -/
theorem normalizer_preserves_values_witness :
    (⟨"M5V1A1", 739000, 50, 40⟩ : NormRow).code = canonCode "m5v 1a1"
    ∧ (some 739000 : Option ℤ)
        = some (⟨"M5V1A1", 739000, 50, 40⟩ : NormRow).date
    ∧ (some 50 : Option ℚ) = some (⟨"M5V1A1", 739000, 50, 40⟩ : NormRow).cap
    ∧ (some 40 : Option ℚ) = some (⟨"M5V1A1", 739000, 50, 40⟩ : NormRow).occ :=
  normalizer_preserves_values_up_to_code_canonicalisation
    ⟨"m5v 1a1", some 739000, some 50, some 40⟩ ⟨"M5V1A1", 739000, 50, 40⟩ rfl

/-- C10: the jitter step adds the identical code-derived offset to every
row of a duplicate group, so rows sharing (lat, lon, code) still share
identical coordinates after jittering, while a row whose triple occurs
exactly once in the frame passes through unchanged; the whole pass is the
per-row map. -/
theorem jitter_moves_duplicate_groups_as_unit :
    ∀ (hash : String → ℕ) (rows : List GeoRow) (r s : GeoRow),
      (sameKey r s = true →
        sameKey (jitterOne hash rows r) (jitterOne hash rows s) = true)
      ∧ ((rows.filter (sameKey r)).length = 1 → jitterOne hash rows r = r)
      ∧ applyJitter hash rows = rows.map (jitterOne hash rows) := by
  intro hash rows r s
  refine ⟨?_, ?_, rfl⟩
  · intro hkey
    have hks : (r.lat = s.lat ∧ r.lon = s.lon) ∧ r.code = s.code := by
      simpa [sameKey, Bool.and_eq_true, beq_iff_eq] using hkey
    obtain ⟨⟨hlat, hlon⟩, hcode⟩ := hks
    have hfun : sameKey r = sameKey s := by
      funext t
      simp [sameKey, hlat, hlon, hcode]
    have hdupe : isDupe rows r = isDupe rows s := by
      simp [isDupe, hfun]
    by_cases hd : isDupe rows s = true
    · simp [jitterOne, hdupe, hd, sameKey, hlat, hlon, hcode]
    · simp [jitterOne, hdupe, hd, sameKey, hlat, hlon, hcode]
  · intro hone
    have hnd : ¬ isDupe rows r = true := by
      simp [isDupe, hone]
    simp [jitterOne, hnd]

/-- C10 witness: a frame with one duplicated triple (1, 2, "AA") and one
unique triple (3, 4, "BB"). -/
theorem jitter_moves_duplicate_groups_as_unit_witness :
    (sameKey
        (jitterOne (fun _ => 123456)
          [⟨1, 2, "AA"⟩, ⟨1, 2, "AA"⟩, ⟨3, 4, "BB"⟩] ⟨1, 2, "AA"⟩)
        (jitterOne (fun _ => 123456)
          [⟨1, 2, "AA"⟩, ⟨1, 2, "AA"⟩, ⟨3, 4, "BB"⟩] ⟨1, 2, "AA"⟩) = true)
    ∧ jitterOne (fun _ => 123456)
        [⟨1, 2, "AA"⟩, ⟨1, 2, "AA"⟩, ⟨3, 4, "BB"⟩] ⟨3, 4, "BB"⟩
        = ⟨3, 4, "BB"⟩ :=
  ⟨(jitter_moves_duplicate_groups_as_unit (fun _ => 123456)
      [⟨1, 2, "AA"⟩, ⟨1, 2, "AA"⟩, ⟨3, 4, "BB"⟩] ⟨1, 2, "AA"⟩ ⟨1, 2, "AA"⟩).1
        (by decide),
   (jitter_moves_duplicate_groups_as_unit (fun _ => 123456)
      [⟨1, 2, "AA"⟩, ⟨1, 2, "AA"⟩, ⟨3, 4, "BB"⟩] ⟨3, 4, "BB"⟩ ⟨3, 4, "BB"⟩).2.1
        (by decide)⟩

/-- C8: every transport operation keeps the week index inside
`[0, number_of_bins - 1]`; the step buttons clamp at the two ends, and an
auto-play tick from the last week wraps to index 0. -/
theorem transport_keeps_week_index_in_range :
    ∀ n cur v : ℤ, 1 ≤ n → 0 ≤ cur → cur ≤ n - 1 → 0 ≤ v → v ≤ n - 1 →
      (0 ≤ stepPrev cur ∧ stepPrev cur ≤ n - 1)
      ∧ (0 ≤ stepNext n cur ∧ stepNext n cur ≤ n - 1)
      ∧ (0 ≤ playTick n cur ∧ playTick n cur ≤ n - 1)
      ∧ (0 ≤ seekWeek v ∧ seekWeek v ≤ n - 1)
      ∧ stepPrev 0 = 0
      ∧ stepNext n (n - 1) = n - 1
      ∧ (cur = n - 1 → playTick n cur = 0) := by
  intro n cur v hn h0 h1 hv0 hv1
  unfold stepPrev stepNext playTick seekWeek
  refine ⟨⟨?_, ?_⟩, ⟨?_, ?_⟩, ⟨?_, ?_⟩, ⟨?_, ?_⟩, ?_, ?_, ?_⟩ <;>
    first
      | omega
      | (simp only [max_def, min_def]; split_ifs <;> omega)
      | (intro hc; split_ifs <;> omega)

/-- C8 witness: a three-week timeline at its last index, with a seek to
week 1. -/
theorem transport_keeps_week_index_in_range_witness :
    ((0:ℤ) ≤ stepPrev 2 ∧ stepPrev 2 ≤ 3 - 1)
    ∧ ((0:ℤ) ≤ stepNext 3 2 ∧ stepNext 3 2 ≤ 3 - 1)
    ∧ ((0:ℤ) ≤ playTick 3 2 ∧ playTick 3 2 ≤ 3 - 1)
    ∧ ((0:ℤ) ≤ seekWeek 1 ∧ seekWeek 1 ≤ 3 - 1)
    ∧ stepPrev 0 = 0
    ∧ stepNext 3 (3 - 1) = 3 - 1
    ∧ ((2:ℤ) = 3 - 1 → playTick 3 2 = 0) :=
  transport_keeps_week_index_in_range 3 2 1 (by decide) (by decide) (by decide)
    (by decide) (by decide)

end Heatmap
